import Mathlib

/-
Verification development for the CAEN high-voltage setup supervisor
(`caen_setup`): a shallow embedding of the Device State Supervisor
(`caen_setup/setup/handler.py`), its cache store rows
(`caen_setup/setup/SetupDB.py`) and the ticket dispatcher
(`caen_setup/tickets/Tickets.py`, `TicketMaster.py`).

Conventions of the embedding:
- Python numbers are rationals, timestamps are integers.
- The SQLAlchemy store is a pair of row lists (`boards`, `channels`);
  the store contract keys boards by `address` and channels by
  `(board_address, channel)` and cascades channel deletion.
- The hardware adapter (`FakeBoard` / `BoardCAEN`) is a parameter
  (`Adapter`); each adapter call is recorded in an event log, and
  fallible calls are modelled by the adapter returning `none` / `false`
  where the Python code would see an exception at the call site.
- Python exceptions that are raised (not caught) by a handler method are
  modelled by returning the state reached so far together with
  `some errorMessage`, matching the mutate-then-raise semantics.
-/

namespace CaenSetup

/-- JSON values, as produced by `json.dumps` / consumed by `json.loads`;
objects keep field order as Python dicts do. -/
inductive J where
  | null : J
  | bool (b : Bool) : J
  | num (q : ℚ) : J
  | str (s : String) : J
  | arr (xs : List J) : J
  | obj (fields : List (String × J)) : J

/-- A row of the `boards` table (`SetupDB.Board`): primary key `address`,
bus path `conet`/`link`, and the optional live adapter `handler`. -/
structure BoardRow where
  address : String
  conet : Int
  link : Int
  handler : Option Int
deriving Repr, DecidableEq

/-- A row of the `channels` table (`SetupDB.Channel`): compound key
`(board_address, channel)`, the informational `alias`, the grouping
`layer`, the refresh timestamp `last_update`, and the cached numeric
parameter columns (kept as an association list over the fixed
parameter-name set; absent means the column is NULL). -/
structure ChannelRow where
  channel : Int
  aliasName : Option String
  layer : Option Int
  lastUpdate : Option Int
  pars : List (String × ℚ)
  boardAddress : String
deriving Repr, DecidableEq

/-- The cache store state: the two tables. -/
structure DBState where
  boards : List BoardRow
  channels : List ChannelRow
deriving Repr, DecidableEq

/-- The compound primary key of a channel row. -/
def chKey (c : ChannelRow) : String × Int := (c.boardAddress, c.channel)

/-- One call to the hardware adapter, as recorded by the embedding:
`set` for `BoardCAEN.set_parameters`, `get` for `BoardCAEN.get_parameters`.
The board address is carried for bookkeeping (the Python call passes the
board handle that was looked up from that board row). -/
inductive HWEvent where
  | set (address : String) (handle : Option Int) (channel : Int)
      (pairs : List (String × ℚ)) : HWEvent
  | get (address : String) (handle : Option Int) (channel : Int)
      (names : List String) : HWEvent
deriving Repr, DecidableEq

/-- The supervisor-visible world: the cache store plus the log of
hardware-adapter calls issued so far. -/
structure World where
  db : DBState
  log : List HWEvent
deriving Repr, DecidableEq

/-- The hardware adapter behaviour: `getPars handle channel names`
returns the read values, or `none` when the read raises; `setOk` tells
whether a `set_parameters` call succeeds (`false` = raises). -/
structure Adapter where
  getPars : Option Int → Int → List String → Option (List (String × ℚ))
  setOk : Option Int → Int → List (String × ℚ) → Bool

/-- `Channel_info.par_names` from `handler.py`: the fixed parameter-name
set of a channel. -/
def parNames : List String :=
  ["VSet", "ISet", "VMon", "IMonH", "Pw", "ChStatus", "Trip", "SVMax",
   "RDWn", "RUp", "PDwn", "Polarity", "Temp", "ImonRange", "IMonL"]

/-- The configuration profile of `Handler.__init__`: the
`default_voltages` and `default_max_current` maps, keyed by the string
form of the layer number. -/
structure Config where
  defaultVoltages : List (String × ℚ)
  defaultMaxCurrent : List (String × ℚ)
deriving Repr, DecidableEq

/-- Lookup in a string-keyed map (Python `dict.get`). -/
def lookupStr (l : List (String × ℚ)) (k : String) : Option ℚ :=
  (l.find? (fun p => p.1 = k)).map (fun p => p.2)

/-- Python `str(layer)` for an optional layer number. -/
def layerKey : Option Int → String
  | none => "None"
  | some n => toString n

/-- `self.__default_voltages.get(str(layer), 0.0)`. -/
def defVolt (cfg : Config) (layer : Option Int) : ℚ :=
  (lookupStr cfg.defaultVoltages (layerKey layer)).getD 0

/-- `max(self.__default_voltages.values())`. -/
def maxDefaultVoltage (cfg : Config) : ℚ :=
  match cfg.defaultVoltages.map (fun p => p.2) with
  | [] => 0
  | v :: vs => vs.foldl max v

/-- `Channel_info` as used by the handler: the identifying fields of the
channel/board pair copied out of the database rows. -/
structure ChannelInfo where
  boardAddress : String
  conet : Int
  link : Int
  channelNum : Int
  layer : Option Int
  aliasName : Option String
deriving Repr, DecidableEq

/-- `Channel_info.from_db_object` applied to a joined row pair. -/
def ciOf (p : ChannelRow × BoardRow) : ChannelInfo :=
  ⟨p.2.address, p.2.conet, p.2.link, p.1.channel, p.1.layer, p.1.aliasName⟩

/-- `select(Channel, Board).join(Board)`: each channel row paired with
its board row (board addresses are unique keys in the store). -/
def joinRows (db : DBState) : List (ChannelRow × BoardRow) :=
  db.channels.filterMap
    (fun c => (db.boards.find? (fun b => b.address = c.boardAddress)).map
      (fun b => (c, b)))

/-- The WHERE clause of `Handler.__get_channels` for a specific channel:
board address, conet, link and channel number all match. -/
def chanMatches (ci : ChannelInfo) (p : ChannelRow × BoardRow) : Bool :=
  decide (p.2.address = ci.boardAddress ∧ p.2.conet = ci.conet ∧
    p.2.link = ci.link ∧ p.1.channel = ci.channelNum)

/-- `Handler.__get_channel`: the joined row pair for a specific channel;
zero or several matches give `none` (`.one()` plus the length check). -/
def getChannel (db : DBState) (ci : ChannelInfo) :
    Option (ChannelRow × BoardRow) :=
  match (joinRows db).filter (chanMatches ci) with
  | [p] => some p
  | _ => none

/-- Channel selection of the controller methods: all channels for
`layer = None` (`Handler.__get_channels`), else the channels whose
`layer` column equals the given value (`Handler.__get_channels_by_layer`). -/
def selectChannels (db : DBState) : Option Int → List (ChannelRow × BoardRow)
  | none => joinRows db
  | some l => (joinRows db).filter (fun p => p.1.layer = some l)

/-- The UPDATE statement of `Handler.__update_parameters`: set the
parameter columns to `vals` and `last_update` to `now` on every channel
row matching `(channel, board_address)`. -/
def updateRow (db : DBState) (addr : String) (ch : Int)
    (vals : List (String × ℚ)) (now : Int) : DBState :=
  { db with channels := db.channels.map (fun c =>
      if c.channel = ch ∧ c.boardAddress = addr then
        { c with pars := vals, lastUpdate := some now }
      else c) }

/-- `Handler.__update_parameters`: look the channel up; if found, read
all parameter names from the hardware adapter (logged as one `get`
event); a failed read is swallowed and leaves the cache untouched; a
successful read is written back together with `last_update = now`. -/
def updateParameters (a : Adapter) (now : Int) (w : World)
    (ci : ChannelInfo) : World :=
  match getChannel w.db ci with
  | none => w
  | some (_, b) =>
    let lg := w.log ++ [HWEvent.get ci.boardAddress b.handler ci.channelNum parNames]
    match a.getPars b.handler ci.channelNum parNames with
    | none => { w with log := lg }
    | some vals =>
      { db := updateRow w.db ci.boardAddress ci.channelNum vals now, log := lg }

/-- `Handler.__set_parameters`: look the channel up (`false` if absent),
issue the hardware write (logged as one `set` event) and report whether
it succeeded; the cache is never touched. -/
def setParameters (a : Adapter) (w : World) (ci : ChannelInfo)
    (pairs : List (String × ℚ)) : World × Bool :=
  match getChannel w.db ci with
  | none => (w, false)
  | some (_, b) =>
    ({ w with log := w.log ++ [HWEvent.set ci.boardAddress b.handler ci.channelNum pairs] },
     a.setOk b.handler ci.channelNum pairs)

/-- The parameter mapping returned by `Handler.__get_parameters`: each
name of the fixed set paired with the cached column value. -/
def readPars (c : ChannelRow) : List (String × Option ℚ) :=
  parNames.map (fun n => (n, lookupStr c.pars n))

/-- The staleness test of `Handler.__get_parameters`:
`last_update is None or now - last_update > refresh_time`. -/
def isStale (lu : Option Int) (now ttl : Int) : Bool :=
  match lu with
  | none => true
  | some t => decide (ttl < now - t)

/-- `Handler.__get_parameters`: read through the cache; a stale row
triggers one `__update_parameters` pass and a re-read of the row; a
fresh row is served from the cache with no hardware call. -/
def getParameters (a : Adapter) (now ttl : Int) (w : World)
    (ci : ChannelInfo) : World × Option (List (String × Option ℚ)) :=
  match getChannel w.db ci with
  | none => (w, none)
  | some (c, _) =>
    if isStale c.lastUpdate now ttl then
      let w' := updateParameters a now w ci
      match getChannel w'.db ci with
      | none => (w', none)
      | some (c', _) => (w', some (readPars c'))
    else (w, some (readPars c))

/-- The range-error message of `Handler.set_voltage`. -/
def rangeMsg : String :=
  "Voltage is either less than zero or bigger than 2400 V <=> voltage_multiplier > 1.2."

/-- The Python error raised by `def_volt / max_default_voltage` when the
maximum configured default voltage is zero. -/
def zeroDivMsg : String := "ZeroDivisionError: float division by zero"

/-- Python 3 `round` to an integer: round half to even. -/
def pyRound (q : ℚ) : ℤ :=
  if q - ⌊q⌋ < 1/2 then ⌊q⌋
  else if 1/2 < q - ⌊q⌋ then ⌊q⌋ + 1
  else if 2 ∣ ⌊q⌋ then ⌊q⌋ else ⌊q⌋ + 1

/-- `layer_speed_mod` of `Handler.set_voltage`:
`def_volt / max_default_voltage if str(layer) != "-1" else 1`. -/
def layerSpeedMod (cfg : Config) (layer : Option Int) : ℚ :=
  if layerKey layer ≠ "-1" then defVolt cfg layer / maxDefaultVoltage cfg else 1

/-- The per-channel body of the `Handler.set_voltage` loop: compute the
target voltage and scaled ramp rates and issue the write; evaluating
`def_volt / max_default_voltage` raises `ZeroDivisionError` when the
maximum default voltage is zero (sentinel layer `-1` skips the division),
aborting the loop with the writes made so far kept. -/
def setVoltageLoop (a : Adapter) (cfg : Config) (ru rd m : ℚ) :
    List (ChannelRow × BoardRow) → World → World × Option String
  | [], w => (w, none)
  | p :: rest, w =>
    if layerKey p.1.layer ≠ "-1" ∧ maxDefaultVoltage cfg = 0 then
      (w, some zeroDivMsg)
    else
      let vdef := defVolt cfg p.1.layer
      let md := layerSpeedMod cfg p.1.layer
      let w' := (setParameters a w (ciOf p)
        [("VSet", vdef * m), ("RUp", ((pyRound (ru * md) : ℤ) : ℚ)),
         ("RDown", ((pyRound (rd * md) : ℤ) : ℚ))]).1
      setVoltageLoop a cfg ru rd m rest w'

/-- A write pass over a channel selection with fixed name/value pairs
(the loops of `Handler.pw_up` / `Handler.pw_down`); the returned success
flags are discarded exactly as the Python code discards them. -/
def writeLoop (a : Adapter) (pairs : List (String × ℚ))
    (sel : List (ChannelRow × BoardRow)) (w : World) : World :=
  sel.foldl (fun w p => (setParameters a w (ciOf p) pairs).1) w

/-- The `list(map(self.__update_parameters, ch_info_list))` pass of
`Handler.pw_up` / `Handler.pw_down`. -/
def updLoop (a : Adapter) (now : Int) (sel : List (ChannelRow × BoardRow))
    (w : World) : World :=
  sel.foldl (fun w p => updateParameters a now w (ciOf p)) w

/-- `Handler.pw_up`: write `(Pw, 1)` to every selected channel, then
force a parameter refresh of each of them. -/
def pwUp (a : Adapter) (now : Int) (layer : Option Int) (w : World) : World :=
  let sel := selectChannels w.db layer
  updLoop a now sel (writeLoop a [("Pw", 1)] sel w)

/-- `Handler.pw_down`: write `(VSet, 0), (Pw, 0), (RDown, 100)` to every
selected channel, then force a parameter refresh of each of them. -/
def pwDown (a : Adapter) (now : Int) (layer : Option Int) (w : World) : World :=
  let sel := selectChannels w.db layer
  updLoop a now sel (writeLoop a [("VSet", 0), ("Pw", 0), ("RDown", 100)] sel w)

/-- `Handler.set_voltage`: reject a multiplier outside `[0, 1.2]` with a
`ValueError` before touching anything; otherwise run the per-channel
write loop over the selection and finish by powering the same selection
up. -/
def setVoltage (a : Adapter) (cfg : Config) (ru rd : ℚ) (now : Int)
    (layer : Option Int) (m : ℚ) (w : World) : World × Option String :=
  if m < 0 ∨ 1.2 < m then (w, some rangeMsg)
  else
    match setVoltageLoop a cfg ru rd m (selectChannels w.db layer) w with
    | (w', none) => (pwUp a now layer w', none)
    | (w', some e) => (w', some e)

/-- JSON encoding of an optional cached value (NULL column ↦ null). -/
def jOfOpt : Option ℚ → J
  | none => J.null
  | some q => J.num q

/-- JSON encoding of an optional integer column. -/
def jOfOptInt : Option Int → J
  | none => J.null
  | some n => J.num (n : ℚ)

/-- JSON encoding of an optional string column. -/
def jOfOptStr : Option String → J
  | none => J.null
  | some s => J.str s

/-- The requested-parameter set of `Handler.get_params`: all known names
plus `VDef` by default, intersected with the caller-supplied selection
when one is given (membership-equivalent to the Python set operations). -/
def reqList (sel : Option (List String)) : List String :=
  match sel with
  | none => parNames ++ ["VDef"]
  | some ps => ps.filter (fun n => n ∈ parNames ++ ["VDef"])

/-- `Board_info.to_dict`: `{address: {conet, link}}`. -/
def boardInfoJ (b : BoardRow) : J :=
  J.obj [(b.address, J.obj [("conet", J.num (b.conet : ℚ)),
    ("link", J.num (b.link : ℚ))])]

/-- The `channel` part of one `Handler.get_params` result entry: the
`alias`, `channel_num`, `layer` and `board_info` keys of
`Channel_info.dict`. -/
def channelJ (p : ChannelRow × BoardRow) : J :=
  J.obj [("alias", jOfOptStr p.1.aliasName),
         ("channel_num", J.num (p.1.channel : ℚ)),
         ("layer", jOfOptInt p.1.layer),
         ("board_info", boardInfoJ p.2)]

/-- `select_requested` inside `Handler.get_params`: read the channel
parameters through the refresh policy, keep the requested names, and
append the synthetic `VDef` entry when requested. -/
def selectRequested (a : Adapter) (cfg : Config) (now ttl : Int)
    (req : List String) (w : World) (ci : ChannelInfo) : World × J :=
  match getParameters a now ttl w ci with
  | (w', none) => (w', J.null)
  | (w', some prs) =>
    let base := prs.filterMap (fun nv =>
      if nv.1 ∈ req then some (nv.1, jOfOpt nv.2) else none)
    (w', J.obj (if "VDef" ∈ req then
      base ++ [("VDef", J.num (defVolt cfg ci.layer))] else base))

/-- `Handler.get_params` with `layer = None` (as the `GetParams` ticket
invokes it): one entry per cached channel, each with its `channel`
description and its requested parameter values. -/
def getParamsAll (a : Adapter) (cfg : Config) (now ttl : Int)
    (sel : Option (List String)) (w : World) : World × J :=
  let req := reqList sel
  let step := fun (acc : World × List J) (p : ChannelRow × BoardRow) =>
    match selectRequested a cfg now ttl req acc.1 (ciOf p) with
    | (w', pj) =>
      (w', acc.2 ++ [J.obj [("channel", channelJ p), ("params", pj)]])
  match (joinRows w.db).foldl step (w, []) with
  | (w', entries) => (w', J.arr entries)

/-- The ticket kinds of `Tickets.py` with their constructor state:
`Down_Ticket` keeps nothing, `SetVoltage_Ticket` keeps the float
`target_voltage`, `GetParams_Ticket` keeps the optional `select_params`
name list (`None` when the key is absent or null). -/
inductive Ticket where
  | down : Ticket
  | setVoltage (target : ℚ) : Ticket
  | getParams (selPars : Option (List String)) : Ticket
deriving Repr, DecidableEq

/-- The `description` property of each ticket class, as a
`(name, params)` pair (`Ticket_info`). `Down` and `GetParams` describe
themselves with empty params; `SetVoltage` reports its target. -/
def description : Ticket → String × J
  | Ticket.down => ("Down", J.obj [])
  | Ticket.setVoltage t => ("SetVoltage", J.obj [("target_voltage", J.num t)])
  | Ticket.getParams _ => ("GetParams", J.obj [])

/-- `TicketMaster.serialize`: the JSON of the ticket description,
`{"name": <kind>, "params": <params>}`. -/
def serializeTicket (t : Ticket) : J :=
  J.obj [("name", J.str (description t).1), ("params", (description t).2)]

/-- Python `obj[key]` on a JSON object (first match; `none` when the key
is absent, which the code surfaces as `KeyError`). -/
def getKey (j : J) (k : String) : Option J :=
  match j with
  | J.obj fs => (fs.find? (fun f => f.1 = k)).map (fun f => f.2)
  | _ => none

/-- A JSON array of strings decoded to a name list. -/
def strListOfJ : J → Option (List String)
  | J.arr xs => xs.mapM (fun x => match x with | J.str s => some s | _ => none)
  | _ => none

/-- The value of `params.get("select_params", None)` as kept by
`GetParams_Ticket`: absent or null means `None`; a string array is the
selection. -/
def decodeNames : Option J → Option (List String)
  | none => none
  | some v => strListOfJ v

/-- The `KeyError` message of `SetVoltage_Ticket.__init__` for a params
dict missing a required field. -/
def missingFieldMsg : String :=
  "Passed params dict does not contain all required fields"

/-- `TicketMaster.deserialize`: look the kind up by `name` (`KeyError`
for a missing name or unknown kind) and run that kind's constructor on
`params`. `SetVoltage_Ticket.__init__` checks its required-key set and
then converts `target_voltage` to float; `Down_Ticket.__init__` ignores
params; `GetParams_Ticket.__init__` uses `params.get` and never raises. -/
def deserializeTicket (j : J) : Except String Ticket :=
  match getKey j "name" with
  | none => Except.error "KeyError: name"
  | some (J.str n) =>
    if n = "SetVoltage" then
      match getKey j "params" with
      | none => Except.error "KeyError: params"
      | some p =>
        match getKey p "target_voltage" with
        | none => Except.error missingFieldMsg
        | some (J.num q) => Except.ok (Ticket.setVoltage q)
        | some _ => Except.error "ValueError: could not convert to float"
    else if n = "Down" then
      match getKey j "params" with
      | none => Except.error "KeyError: params"
      | some _ => Except.ok Ticket.down
    else if n = "GetParams" then
      match getKey j "params" with
      | none => Except.error "KeyError: params"
      | some p => Except.ok (Ticket.getParams (decodeNames (getKey p "select_params")))
    else Except.error "KeyError: unknown ticket name"
  | some _ => Except.error "KeyError: unknown ticket name"

/-- The constructor state of a `Handler` instance as the tickets see it:
the hardware adapter, the configuration profile, the base ramp rates and
the refresh TTL. -/
structure HandlerCtx where
  adapter : Adapter
  cfg : Config
  rampUp : ℚ
  rampDown : ℚ
  refreshTime : Int

/-- The success envelope `{"status": true, "body": body}`. -/
def okEnv (body : J) : J := J.obj [("status", J.bool true), ("body", body)]

/-- The failure envelope `{"status": false, "body": {"error": msg}}`. -/
def errEnv (msg : String) : J :=
  J.obj [("status", J.bool false), ("body", J.obj [("error", J.str msg)])]

/-- `Ticket.execute` of each kind: run the handler call inside
`try/except` and emit the JSON envelope; an exception raised by the
handler call becomes a `status=false` envelope. -/
def executeTicket (hc : HandlerCtx) (now : Int) (w : World) :
    Ticket → J × World
  | Ticket.down => (okEnv (J.obj []), pwDown hc.adapter now none w)
  | Ticket.setVoltage t =>
    match setVoltage hc.adapter hc.cfg hc.rampUp hc.rampDown now none t w with
    | (w', none) => (okEnv (J.obj []), w')
    | (w', some e) => (errEnv e, w')
  | Ticket.getParams sel =>
    match getParamsAll hc.adapter hc.cfg now hc.refreshTime sel w with
    | (w', pj) => (okEnv (J.obj [("params", pj)]), w')

/-- The top-level keys of a JSON object. -/
def keysOf : J → List String
  | J.obj fs => fs.map (fun f => f.1)
  | _ => []

/-- One configured channel of a board (`_Channel_LayerPair`). -/
structure ChSpec where
  channel : Int
  aliasName : Option String
  layer : Option Int
deriving Repr, DecidableEq

/-- `Board_info`: a board's address, bus path, optional live handle and
channel list (from the configuration or from the store). -/
structure BoardInfo where
  address : String
  conet : Int
  link : Int
  handler : Option Int
  channels : List ChSpec
deriving Repr, DecidableEq

/-- `Handler.__fill_board_handler`: upsert the board row keyed by
`address` (the `session.merge` followed by the UPDATE statement). -/
def fillBoardHandler (db : DBState) (b : BoardInfo) : DBState :=
  if db.boards.any (fun r => r.address = b.address) then
    { db with boards := db.boards.map (fun r =>
        if r.address = b.address then ⟨b.address, b.conet, b.link, b.handler⟩
        else r) }
  else
    { db with boards := db.boards ++ [⟨b.address, b.conet, b.link, b.handler⟩] }

/-- `session.merge(Channel(...))`: insert the configured channel row, or
replace the row with the same `(channel, board_address)` key; merged
rows start with NULL `last_update` and parameter columns. -/
def mergeChannel (db : DBState) (addr : String) (cs : ChSpec) : DBState :=
  if db.channels.any (fun c => c.channel = cs.channel ∧ c.boardAddress = addr) then
    { db with channels := db.channels.map (fun c =>
        if c.channel = cs.channel ∧ c.boardAddress = addr then
          ⟨cs.channel, cs.aliasName, cs.layer, none, [], addr⟩
        else c) }
  else
    { db with channels := db.channels ++ [⟨cs.channel, cs.aliasName, cs.layer, none, [], addr⟩] }

/-- `Handler.__reserve_board_channels`: drop every channel row of the
board's address, then merge in the rows of the board's channel list. -/
def reserveBoardChannels (db : DBState) (b : BoardInfo) : DBState :=
  let db1 : DBState :=
    { db with channels := db.channels.filter (fun c => c.boardAddress ≠ b.address) }
  b.channels.foldl (fun d cs => mergeChannel d b.address cs) db1

/-- `Handler.__get_board_handler`: exactly one board row matching
address/conet/link gives its (possibly NULL) handle; zero or several
matches give `None`. -/
def getBoardHandler (db : DBState) (b : BoardInfo) : Option Int :=
  match db.boards.filter (fun r =>
      r.address = b.address ∧ r.conet = b.conet ∧ r.link = b.link) with
  | [r] => r.handler
  | _ => none

/-- `Handler.__add_board`: raise `ValueError` when the board already has
a handle in the store; otherwise initialize it through the adapter,
persist the handle and reserve its configured channels. -/
def addBoard (ih : String → Int → Int → Int) (db : DBState) (b : BoardInfo) :
    DBState × Option String :=
  if (getBoardHandler db b).isSome then (db, some "This board already exists.")
  else
    let b' : BoardInfo := { b with handler := some (ih b.address b.conet b.link) }
    (reserveBoardChannels (fillBoardHandler db b') b', none)

/-- `Handler.__remove_none_boards`: purge every board row whose handle
is NULL, cascading to its channel rows (store contract). -/
def removeNoneBoards (db : DBState) : DBState :=
  let dead := (db.boards.filter (fun r => r.handler = none)).map (fun r => r.address)
  { boards := db.boards.filter (fun r => r.handler ≠ none),
    channels := db.channels.filter (fun c => ¬ c.boardAddress ∈ dead) }

/-- `Handler.__remove_board`: clear the board's handle, persist, purge. -/
def removeBoard (db : DBState) (b : BoardInfo) : DBState :=
  removeNoneBoards (fillBoardHandler db { b with handler := none })

/-- `Handler.__get_boards`: every board row as a `Board_info`, its
channel list loaded through the ORM relationship. -/
def getBoards (db : DBState) : List BoardInfo :=
  db.boards.map (fun r =>
    ⟨r.address, r.conet, r.link, r.handler,
     (db.channels.filter (fun c => c.boardAddress = r.address)).map
       (fun c => ⟨c.channel, c.aliasName, c.layer⟩)⟩)

/-- The `for b in config: self.__add_board(b)` loop of
`Handler.__initialize_boards`: the first `ValueError` aborts the loop
with the store mutations made so far kept. -/
def addBoardsLoop (ih : String → Int → Int → Int) :
    List BoardInfo → DBState → DBState × Option String
  | [], db => (db, none)
  | b :: rest, db =>
    match addBoard ih db b with
    | (db', none) => addBoardsLoop ih rest db'
    | (db', some e) => (db', some e)

/-- `Handler.__initialize_boards` (directory reconciliation): drop
cached boards missing from the configuration, re-initialize the cached
ones that remain, then run `__add_board` over every configuration entry
and finally purge handle-less boards. -/
def initializeBoards (ih : String → Int → Int → Int) (cfg : List BoardInfo)
    (db : DBState) : DBState × Option String :=
  let addrs := cfg.map (fun b => b.address)
  let db1 := (getBoards db).foldl (fun d b =>
      if ¬ b.address ∈ addrs then removeBoard d b
      else
        let b' : BoardInfo := { b with handler := some (ih b.address b.conet b.link) }
        fillBoardHandler (reserveBoardChannels d b') b') db
  match addBoardsLoop ih cfg db1 with
  | (db2, none) => (removeNoneBoards db2, none)
  | (db2, some e) => (db2, some e)

/-- `Handler.__init__` after configuration parsing: bind a fresh
in-memory store, delete every Board and Channel row
(`__remove_DB_records`), reconcile the configured boards, then write the
initial parameter set (`ImonRange`, `ISet`, `Trip`, `RUp`, `RDWn`,
`PDwn`) to every channel now in the store. -/
def handlerInit (ih : String → Int → Int → Int) (a : Adapter)
    (cfg : List BoardInfo) (profile : Config) (imonRange ru rd : ℚ)
    (w : World) : World × Option String :=
  let w1 : World := { db := ⟨[], []⟩, log := w.log }
  match initializeBoards ih cfg w1.db with
  | (db2, some e) => ({ db := db2, log := w1.log }, some e)
  | (db2, none) =>
    let w2 : World := { db := db2, log := w1.log }
    let w3 := (joinRows w2.db).foldl (fun wacc p =>
      let maxCur := (lookupStr profile.defaultMaxCurrent (layerKey p.1.layer)).getD 50
      (setParameters a wacc (ciOf p)
        [("ImonRange", imonRange), ("ISet", maxCur), ("Trip", 0.2),
         ("RUp", ru), ("RDWn", rd), ("PDwn", 1)]).1) w2
    (w3, none)

/-- The hardware write issued for one channel by the `set_voltage` loop. -/
def svEvt (cfg : Config) (ru rd m : ℚ) (p : ChannelRow × BoardRow) : HWEvent :=
  HWEvent.set p.1.boardAddress p.2.handler p.1.channel
    [("VSet", defVolt cfg p.1.layer * m),
     ("RUp", ((pyRound (ru * layerSpeedMod cfg p.1.layer) : ℤ) : ℚ)),
     ("RDown", ((pyRound (rd * layerSpeedMod cfg p.1.layer) : ℤ) : ℚ))]

/-- The hardware write issued for one channel by `pw_up`. -/
def pwOnEvt (p : ChannelRow × BoardRow) : HWEvent :=
  HWEvent.set p.1.boardAddress p.2.handler p.1.channel [("Pw", 1)]

/-- The hardware write issued for one channel by `pw_down`. -/
def pwOffEvt (p : ChannelRow × BoardRow) : HWEvent :=
  HWEvent.set p.1.boardAddress p.2.handler p.1.channel
    [("VSet", 0), ("Pw", 0), ("RDown", 100)]

/-- The hardware read issued for one channel by `__update_parameters`. -/
def refreshEvt (p : ChannelRow × BoardRow) : HWEvent :=
  HWEvent.get p.1.boardAddress p.2.handler p.1.channel parNames

/-- Whether an adapter event is a `set_parameters` call aimed at the
channel identified by board address and channel number. -/
def isSetAt (addr : String) (ch : Int) : HWEvent → Bool
  | HWEvent.set a _ c _ => decide (a = addr ∧ c = ch)
  | HWEvent.get _ _ _ _ => false

section Lemmas

lemma find?_addr {bs : List BoardRow} {s : String} {b : BoardRow}
    (h : bs.find? (fun r => r.address = s) = some b) : b.address = s := by
  have := List.find?_some h
  simpa using this

lemma mem_joinRows {db : DBState} {p : ChannelRow × BoardRow} :
    p ∈ joinRows db ↔ p.1 ∈ db.channels ∧
      db.boards.find? (fun b => b.address = p.1.boardAddress) = some p.2 := by
  constructor
  · intro h
    obtain ⟨c, hc, hfc⟩ := List.mem_filterMap.mp h
    obtain ⟨b, hb, hfb⟩ := Option.map_eq_some'.mp hfc
    subst hfb
    exact ⟨hc, hb⟩
  · intro ⟨hc, hf⟩
    refine List.mem_filterMap.mpr ⟨p.1, hc, ?_⟩
    rw [hf]
    rfl

lemma joinRows_addr {db : DBState} {p : ChannelRow × BoardRow}
    (h : p ∈ joinRows db) : p.2.address = p.1.boardAddress :=
  find?_addr (mem_joinRows.mp h).2

lemma joinRows_nodup {db : DBState} (h : (db.channels.map chKey).Nodup) :
    (joinRows db).Nodup := by
  refine List.Nodup.filterMap ?_ (h.of_map chKey)
  intro a a' b hb hb'
  obtain ⟨x, _, hx⟩ := Option.map_eq_some'.mp (Option.mem_def.mp hb)
  obtain ⟨y, _, hy⟩ := Option.map_eq_some'.mp (Option.mem_def.mp hb')
  have : a = b.1 := by rw [← hx]
  have h' : a' = b.1 := by rw [← hy]
  rw [this, h']

lemma filter_eq_single {α : Type} {l : List α} {pred : α → Bool} {p : α}
    (hnd : l.Nodup) (hp : p ∈ l) (hpp : pred p = true)
    (huniq : ∀ x ∈ l, pred x = true → x = p) : l.filter pred = [p] := by
  induction l with
  | nil => simp at hp
  | cons a l ih =>
    rw [List.filter_cons]
    have hnd' := List.nodup_cons.mp hnd
    rcases List.mem_cons.mp hp with rfl | hp'
    · rw [if_pos hpp]
      have hnil : l.filter pred = [] := by
        rw [List.filter_eq_nil_iff]
        intro x hx hpx
        exact hnd'.1 ((huniq x (List.mem_cons_of_mem _ hx) hpx) ▸ hx)
      rw [hnil]
    · have hna : pred a = false := by
        cases hpa : pred a with
        | false => rfl
        | true => exact absurd ((huniq a (List.mem_cons_self a l) hpa) ▸ hp') hnd'.1
      rw [if_neg (by simp [hna])]
      exact ih hnd'.2 hp' (fun x hx hpx => huniq x (List.mem_cons_of_mem _ hx) hpx)

lemma getChannel_eq {db : DBState} {c : ChannelRow} {b : BoardRow}
    (hnd : (db.channels.map chKey).Nodup)
    (hc : c ∈ db.channels)
    (hb : db.boards.find? (fun r => r.address = c.boardAddress) = some b)
    (lay : Option Int) (al : Option String) :
    getChannel db ⟨c.boardAddress, b.conet, b.link, c.channel, lay, al⟩ =
      some (c, b) := by
  have hmemj : (c, b) ∈ joinRows db := mem_joinRows.mpr ⟨hc, hb⟩
  have hba : b.address = c.boardAddress := find?_addr hb
  have hfilter : (joinRows db).filter
      (chanMatches ⟨c.boardAddress, b.conet, b.link, c.channel, lay, al⟩) = [(c, b)] := by
    refine filter_eq_single (joinRows_nodup hnd) hmemj ?_ ?_
    · simp [chanMatches, hba]
    · intro x hx hmx
      obtain ⟨hx1, hxf⟩ := mem_joinRows.mp hx
      simp only [chanMatches, decide_eq_true_eq] at hmx
      obtain ⟨hxa, hxco, hxl, hxch⟩ := hmx
      have hxaddr : x.2.address = x.1.boardAddress := find?_addr hxf
      have hkey : chKey x.1 = chKey c := by
        simp only [chKey, Prod.mk.injEq]
        exact ⟨by rw [← hxaddr, hxa], hxch⟩
      have hx1c : x.1 = c := List.inj_on_of_nodup_map hnd hx1 hc hkey
      have hx2b : x.2 = b := by
        rw [hx1c] at hxf
        rw [hxf] at hb
        exact Option.some.inj hb
      rw [← hx1c, ← hx2b]
  rw [getChannel, hfilter]

lemma joinRows_keys_sublist_aux (bs : List BoardRow) : ∀ (cs : List ChannelRow),
    ((cs.filterMap (fun c =>
        (bs.find? (fun b => b.address = c.boardAddress)).map (fun b => (c, b)))).map
      (fun p => chKey p.1)).Sublist (cs.map chKey) := by
  intro cs
  induction cs with
  | nil => simp
  | cons c cs ih =>
    rw [List.filterMap_cons, List.map_cons]
    cases h : (bs.find? (fun b => b.address = c.boardAddress)).map
        (fun b => ((c, b) : ChannelRow × BoardRow)) with
    | none => exact ih.cons (chKey c)
    | some p =>
      obtain ⟨b, _, hfb⟩ := Option.map_eq_some'.mp h
      rw [List.map_cons, ← hfb]
      exact ih.cons₂ (chKey c)

lemma joinRows_keys_sublist {db : DBState} :
    ((joinRows db).map (fun p => chKey p.1)).Sublist (db.channels.map chKey) :=
  joinRows_keys_sublist_aux db.boards db.channels

lemma mem_selectChannels {db : DBState} {layer : Option Int}
    {p : ChannelRow × BoardRow} (h : p ∈ selectChannels db layer) :
    p ∈ joinRows db := by
  cases layer with
  | none => exact h
  | some l => exact List.mem_of_mem_filter h

lemma selectChannels_sublist {db : DBState} {layer : Option Int} :
    (selectChannels db layer).Sublist (joinRows db) := by
  cases layer with
  | none => exact List.Sublist.refl _
  | some l => exact List.filter_sublist _

lemma selectChannels_keys_nodup (layer : Option Int) {db : DBState}
    (hnd : (db.channels.map chKey).Nodup) :
    ((selectChannels db layer).map (fun p => chKey p.1)).Nodup :=
  List.Nodup.sublist (selectChannels_sublist.map _)
    (List.Nodup.sublist joinRows_keys_sublist hnd)

lemma ciOf_eq {db : DBState} {p : ChannelRow × BoardRow} (hp : p ∈ joinRows db) :
    ciOf p = ⟨p.1.boardAddress, p.2.conet, p.2.link, p.1.channel,
      p.1.layer, p.1.aliasName⟩ := by
  simp [ciOf, joinRows_addr hp]

lemma setParameters_mem {a : Adapter} {w : World} {p : ChannelRow × BoardRow}
    (hnd : (w.db.channels.map chKey).Nodup) (hp : p ∈ joinRows w.db)
    (pairs : List (String × ℚ)) :
    setParameters a w (ciOf p) pairs =
      ({ w with log := w.log ++
          [HWEvent.set p.1.boardAddress p.2.handler p.1.channel pairs] },
       a.setOk p.2.handler p.1.channel pairs) := by
  obtain ⟨hc, hb⟩ := mem_joinRows.mp hp
  rw [ciOf_eq hp, setParameters, getChannel_eq hnd hc hb]

lemma updateRow_boards {db : DBState} {addr : String} {ch : Int}
    {vals : List (String × ℚ)} {now : Int} :
    (updateRow db addr ch vals now).boards = db.boards := rfl

lemma updateRow_keys {db : DBState} {addr : String} {ch : Int}
    {vals : List (String × ℚ)} {now : Int} :
    (updateRow db addr ch vals now).channels.map chKey =
      db.channels.map chKey := by
  show (db.channels.map _).map chKey = _
  rw [List.map_map]
  apply List.map_congr_left
  intro c _
  by_cases h : (c.channel = ch ∧ c.boardAddress = addr) <;> simp [h, chKey]

lemma updateRow_mem_of_ne {db : DBState} {addr : String} {ch : Int}
    {vals : List (String × ℚ)} {now : Int} {c : ChannelRow}
    (hc : c ∈ db.channels) (hne : ¬(c.channel = ch ∧ c.boardAddress = addr)) :
    c ∈ (updateRow db addr ch vals now).channels := by
  have h := List.mem_map_of_mem (f := fun c : ChannelRow =>
    if c.channel = ch ∧ c.boardAddress = addr then
      { c with pars := vals, lastUpdate := some now } else c) hc
  simp only [if_neg hne] at h
  exact h

lemma updateRow_mem_updated {db : DBState} {addr : String} {ch : Int}
    {vals : List (String × ℚ)} {now : Int} {c : ChannelRow}
    (hc : c ∈ db.channels) (heq : c.channel = ch ∧ c.boardAddress = addr) :
    ({ c with pars := vals, lastUpdate := some now } : ChannelRow) ∈
      (updateRow db addr ch vals now).channels := by
  have h := List.mem_map_of_mem (f := fun c : ChannelRow =>
    if c.channel = ch ∧ c.boardAddress = addr then
      { c with pars := vals, lastUpdate := some now } else c) hc
  simp only [if_pos heq] at h
  exact h

lemma updateParameters_none (a : Adapter) (now : Int) {w : World}
    {p : ChannelRow × BoardRow}
    (hnd : (w.db.channels.map chKey).Nodup) (hp : p ∈ joinRows w.db)
    (hga : a.getPars p.2.handler p.1.channel parNames = none) :
    updateParameters a now w (ciOf p) = { w with log := w.log ++ [refreshEvt p] } := by
  obtain ⟨hc, hb⟩ := mem_joinRows.mp hp
  rw [ciOf_eq hp, updateParameters, getChannel_eq hnd hc hb]
  show (match a.getPars p.2.handler p.1.channel parNames with
    | none => _ | some vals => _) = _
  rw [hga]
  rfl

lemma updateParameters_some (a : Adapter) (now : Int) {w : World}
    {p : ChannelRow × BoardRow} {vals : List (String × ℚ)}
    (hnd : (w.db.channels.map chKey).Nodup) (hp : p ∈ joinRows w.db)
    (hga : a.getPars p.2.handler p.1.channel parNames = some vals) :
    updateParameters a now w (ciOf p) =
      { db := updateRow w.db p.1.boardAddress p.1.channel vals now,
        log := w.log ++ [refreshEvt p] } := by
  obtain ⟨hc, hb⟩ := mem_joinRows.mp hp
  rw [ciOf_eq hp, updateParameters, getChannel_eq hnd hc hb]
  show (match a.getPars p.2.handler p.1.channel parNames with
    | none => _ | some vals => _) = _
  rw [hga]
  rfl

lemma writeLoop_spec {a : Adapter} {pairs : List (String × ℚ)} :
    ∀ {sel : List (ChannelRow × BoardRow)} {w : World},
    (w.db.channels.map chKey).Nodup →
    (∀ p ∈ sel, p ∈ joinRows w.db) →
    writeLoop a pairs sel w =
      { db := w.db, log := w.log ++ sel.map (fun p =>
          HWEvent.set p.1.boardAddress p.2.handler p.1.channel pairs) } := by
  intro sel
  induction sel with
  | nil => intro w _ _; simp [writeLoop]
  | cons p rest ih =>
    intro w hnd hsub
    have hp := hsub p (List.mem_cons_self p rest)
    have hfst : (setParameters a w (ciOf p) pairs).1 =
        { db := w.db, log := w.log ++
          [HWEvent.set p.1.boardAddress p.2.handler p.1.channel pairs] } := by
      rw [setParameters_mem hnd hp pairs]
    show writeLoop a pairs rest (setParameters a w (ciOf p) pairs).1 = _
    rw [hfst,
      ih (w := { db := w.db, log := w.log ++
        [HWEvent.set p.1.boardAddress p.2.handler p.1.channel pairs] })
        hnd (fun q hq => hsub q (List.mem_cons_of_mem p hq))]
    simp

lemma setVoltageLoop_spec {a : Adapter} {cfg : Config} {ru rd m : ℚ}
    (hmax : maxDefaultVoltage cfg ≠ 0) :
    ∀ {sel : List (ChannelRow × BoardRow)} {w : World},
    (w.db.channels.map chKey).Nodup →
    (∀ p ∈ sel, p ∈ joinRows w.db) →
    setVoltageLoop a cfg ru rd m sel w =
      ({ db := w.db, log := w.log ++ sel.map (svEvt cfg ru rd m) }, none) := by
  intro sel
  induction sel with
  | nil => intro w _ _; simp [setVoltageLoop]
  | cons p rest ih =>
    intro w hnd hsub
    have hp := hsub p (List.mem_cons_self p rest)
    have hguard : ¬(layerKey p.1.layer ≠ "-1" ∧ maxDefaultVoltage cfg = 0) :=
      fun h => hmax h.2
    have hfst : (setParameters a w (ciOf p)
        [("VSet", defVolt cfg p.1.layer * m),
         ("RUp", ((pyRound (ru * layerSpeedMod cfg p.1.layer) : ℤ) : ℚ)),
         ("RDown", ((pyRound (rd * layerSpeedMod cfg p.1.layer) : ℤ) : ℚ))]).1 =
        { db := w.db, log := w.log ++ [svEvt cfg ru rd m p] } := by
      rw [setParameters_mem hnd hp]
      rfl
    simp only [setVoltageLoop]
    rw [if_neg hguard]
    show setVoltageLoop a cfg ru rd m rest (setParameters a w (ciOf p)
        [("VSet", defVolt cfg p.1.layer * m),
         ("RUp", ((pyRound (ru * layerSpeedMod cfg p.1.layer) : ℤ) : ℚ)),
         ("RDown", ((pyRound (rd * layerSpeedMod cfg p.1.layer) : ℤ) : ℚ))]).1 = _
    rw [hfst,
      ih (w := { db := w.db, log := w.log ++ [svEvt cfg ru rd m p] })
        hnd (fun q hq => hsub q (List.mem_cons_of_mem p hq))]
    simp

lemma setVoltageLoop_err (a : Adapter) (cfg : Config) (ru rd m : ℚ) :
    ∀ (sel : List (ChannelRow × BoardRow)) (w : World),
    (setVoltageLoop a cfg ru rd m sel w).2 = none ∨
    (setVoltageLoop a cfg ru rd m sel w).2 = some zeroDivMsg := by
  intro sel
  induction sel with
  | nil => intro w; left; rfl
  | cons p rest ih =>
    intro w
    simp only [setVoltageLoop]
    by_cases h : (layerKey p.1.layer ≠ "-1" ∧ maxDefaultVoltage cfg = 0)
    · rw [if_pos h]; right; rfl
    · rw [if_neg h]; exact ih _

lemma updateParameters_key_none {a : Adapter} {now : Int} {w : World}
    {p : ChannelRow × BoardRow} {c' : ChannelRow}
    (hnd : (w.db.channels.map chKey).Nodup)
    (hc' : c' ∈ w.db.channels) (hkey : chKey c' = chKey p.1)
    (hb : w.db.boards.find? (fun r => r.address = p.1.boardAddress) = some p.2)
    (hga : a.getPars p.2.handler p.1.channel parNames = none) :
    updateParameters a now w (ciOf p) = { w with log := w.log ++ [refreshEvt p] } := by
  have hcb : c'.boardAddress = p.1.boardAddress := congrArg Prod.fst hkey
  have hcc : c'.channel = p.1.channel := congrArg Prod.snd hkey
  have haddr : p.2.address = p.1.boardAddress := find?_addr hb
  have hci : ciOf p = ⟨c'.boardAddress, p.2.conet, p.2.link, c'.channel,
      p.1.layer, p.1.aliasName⟩ := by
    simp [ciOf, haddr, hcb, hcc]
  have hb' : w.db.boards.find? (fun r => r.address = c'.boardAddress) = some p.2 := by
    rw [hcb]; exact hb
  rw [hci, updateParameters, getChannel_eq hnd hc' hb']
  show (match a.getPars p.2.handler c'.channel parNames with
    | none => _ | some vals => _) = _
  rw [hcc, hga]
  simp [refreshEvt, hcb, hcc]

lemma updateParameters_key_some {a : Adapter} {now : Int} {w : World}
    {p : ChannelRow × BoardRow} {c' : ChannelRow} {vals : List (String × ℚ)}
    (hnd : (w.db.channels.map chKey).Nodup)
    (hc' : c' ∈ w.db.channels) (hkey : chKey c' = chKey p.1)
    (hb : w.db.boards.find? (fun r => r.address = p.1.boardAddress) = some p.2)
    (hga : a.getPars p.2.handler p.1.channel parNames = some vals) :
    updateParameters a now w (ciOf p) =
      { db := updateRow w.db p.1.boardAddress p.1.channel vals now,
        log := w.log ++ [refreshEvt p] } := by
  have hcb : c'.boardAddress = p.1.boardAddress := congrArg Prod.fst hkey
  have hcc : c'.channel = p.1.channel := congrArg Prod.snd hkey
  have haddr : p.2.address = p.1.boardAddress := find?_addr hb
  have hci : ciOf p = ⟨c'.boardAddress, p.2.conet, p.2.link, c'.channel,
      p.1.layer, p.1.aliasName⟩ := by
    simp [ciOf, haddr, hcb, hcc]
  have hb' : w.db.boards.find? (fun r => r.address = c'.boardAddress) = some p.2 := by
    rw [hcb]; exact hb
  rw [hci, updateParameters, getChannel_eq hnd hc' hb']
  show (match a.getPars p.2.handler c'.channel parNames with
    | none => _ | some vals => _) = _
  rw [hcc, hga]
  simp [refreshEvt, hcb, hcc]

lemma updLoop_preserve (a : Adapter) (now : Int) :
    ∀ {sel : List (ChannelRow × BoardRow)} {w : World} {c : ChannelRow},
    (∀ p ∈ sel, p.2.address = p.1.boardAddress) →
    c ∈ w.db.channels → chKey c ∉ sel.map (fun p => chKey p.1) →
    c ∈ (updLoop a now sel w).db.channels := by
  intro sel
  induction sel with
  | nil => intro w c _ hc _; exact hc
  | cons p rest ih =>
    intro w c haddr hc hnot
    have hkc : chKey c ≠ chKey p.1 ∧ chKey c ∉ rest.map (fun p => chKey p.1) := by
      rw [List.map_cons, List.mem_cons] at hnot
      exact ⟨fun h => hnot (Or.inl h), fun h => hnot (Or.inr h)⟩
    have hcstep : c ∈ (updateParameters a now w (ciOf p)).db.channels := by
      rw [updateParameters]
      cases hgc : getChannel w.db (ciOf p) with
      | none => exact hc
      | some q =>
        obtain ⟨c₀, b₀⟩ := q
        show c ∈ (match a.getPars b₀.handler (ciOf p).channelNum parNames with
          | none => _ | some vals => _ : World).db.channels
        cases hgp : a.getPars b₀.handler (ciOf p).channelNum parNames with
        | none => exact hc
        | some vals =>
          show c ∈ (updateRow w.db (ciOf p).boardAddress (ciOf p).channelNum
            vals now).channels
          refine updateRow_mem_of_ne hc ?_
          intro hh
          refine hkc.1 ?_
          have h1 : (ciOf p).channelNum = p.1.channel := rfl
          have h2 : (ciOf p).boardAddress = p.1.boardAddress :=
            haddr p (List.mem_cons_self p rest)
          simp only [chKey, Prod.mk.injEq]
          exact ⟨h2 ▸ hh.2, h1 ▸ hh.1⟩
    exact ih (fun q hq => haddr q (List.mem_cons_of_mem p hq)) hcstep hkc.2

lemma updLoop_spec (a : Adapter) (now : Int) :
    ∀ {sel : List (ChannelRow × BoardRow)} {w : World},
    (w.db.channels.map chKey).Nodup →
    (∀ p ∈ sel, chKey p.1 ∈ w.db.channels.map chKey ∧
       w.db.boards.find? (fun r => r.address = p.1.boardAddress) = some p.2) →
    (sel.map (fun p => chKey p.1)).Nodup →
    (updLoop a now sel w).db.boards = w.db.boards ∧
    (updLoop a now sel w).db.channels.map chKey = w.db.channels.map chKey ∧
    (updLoop a now sel w).log = w.log ++ sel.map refreshEvt ∧
    (∀ p ∈ sel, (a.getPars p.2.handler p.1.channel parNames).isSome = true →
       ∃ c ∈ (updLoop a now sel w).db.channels,
         chKey c = chKey p.1 ∧ c.lastUpdate = some now) := by
  intro sel
  induction sel with
  | nil =>
    intro w _ _ _
    refine ⟨rfl, rfl, by simp [updLoop], ?_⟩
    intro p hp
    simp at hp
  | cons p rest ih =>
    intro w hnd hsel hkeys
    obtain ⟨hkmem, hfind⟩ := hsel p (List.mem_cons_self p rest)
    obtain ⟨c', hc', hkey⟩ := List.mem_map.mp hkmem
    have hkeys0 : chKey p.1 ∉ rest.map (fun p => chKey p.1) ∧
        (rest.map (fun p => chKey p.1)).Nodup := by
      rw [List.map_cons, List.nodup_cons] at hkeys
      exact hkeys
    have hrestaddr : ∀ q ∈ rest, q.2.address = q.1.boardAddress :=
      fun q hq => find?_addr (hsel q (List.mem_cons_of_mem p hq)).2
    show (updLoop a now rest (updateParameters a now w (ciOf p))).db.boards =
        w.db.boards ∧
      (updLoop a now rest (updateParameters a now w (ciOf p))).db.channels.map chKey =
        w.db.channels.map chKey ∧
      (updLoop a now rest (updateParameters a now w (ciOf p))).log =
        w.log ++ (p :: rest).map refreshEvt ∧
      (∀ q ∈ p :: rest, (a.getPars q.2.handler q.1.channel parNames).isSome = true →
        ∃ c ∈ (updLoop a now rest (updateParameters a now w (ciOf p))).db.channels,
          chKey c = chKey q.1 ∧ c.lastUpdate = some now)
    cases hgp : a.getPars p.2.handler p.1.channel parNames with
    | none =>
      rw [updateParameters_key_none hnd hc' hkey hfind hgp]
      have ihr := ih (w := { w with log := w.log ++ [refreshEvt p] }) hnd
        (fun q hq => hsel q (List.mem_cons_of_mem p hq)) hkeys0.2
      refine ⟨ihr.1, ihr.2.1, ?_, ?_⟩
      · rw [ihr.2.2.1]; simp
      · intro q hq hsome
        rcases List.mem_cons.mp hq with hq1 | hq'
        · subst hq1
          rw [hgp] at hsome
          simp at hsome
        · exact ihr.2.2.2 q hq' hsome
    | some vals =>
      rw [updateParameters_key_some hnd hc' hkey hfind hgp]
      have hndU : ((updateRow w.db p.1.boardAddress p.1.channel vals now).channels.map
          chKey).Nodup := by rw [updateRow_keys]; exact hnd
      have hselU : ∀ q ∈ rest, chKey q.1 ∈
          (updateRow w.db p.1.boardAddress p.1.channel vals now).channels.map chKey ∧
          (updateRow w.db p.1.boardAddress p.1.channel vals now).boards.find?
            (fun r => r.address = q.1.boardAddress) = some q.2 := by
        intro q hq
        obtain ⟨h1, h2⟩ := hsel q (List.mem_cons_of_mem p hq)
        exact ⟨by rw [updateRow_keys]; exact h1, by rw [updateRow_boards]; exact h2⟩
      have ihr := ih
        (w := { db := updateRow w.db p.1.boardAddress p.1.channel vals now,
                log := w.log ++ [refreshEvt p] }) hndU hselU hkeys0.2
      refine ⟨by rw [ihr.1]; exact updateRow_boards,
        by rw [ihr.2.1]; exact updateRow_keys, ?_, ?_⟩
      · rw [ihr.2.2.1]; simp
      · intro q hq hsome
        rcases List.mem_cons.mp hq with hq1 | hq'
        · subst hq1
          have hcb : c'.boardAddress = q.1.boardAddress := congrArg Prod.fst hkey
          have hcc : c'.channel = q.1.channel := congrArg Prod.snd hkey
          have hmemU : ({ c' with pars := vals, lastUpdate := some now } : ChannelRow) ∈
              (updateRow w.db q.1.boardAddress q.1.channel vals now).channels :=
            updateRow_mem_updated hc' ⟨hcc, hcb⟩
          have hkeyU : chKey ({ c' with pars := vals, lastUpdate := some now } :
              ChannelRow) = chKey q.1 := hkey
          have hfin := updLoop_preserve a now
            (w := { db := updateRow w.db q.1.boardAddress q.1.channel vals now,
                    log := w.log ++ [refreshEvt q] })
            hrestaddr hmemU (hkeyU ▸ hkeys0.1)
          exact ⟨_, hfin, hkeyU, rfl⟩
        · exact ihr.2.2.2 q hq' hsome
lemma sel_sub_joinRows {db : DBState} {layer : Option Int} :
    ∀ p ∈ selectChannels db layer, p ∈ joinRows db :=
  fun _ hp => mem_selectChannels hp

lemma sel_hsel {db : DBState} {layer : Option Int} :
    ∀ p ∈ selectChannels db layer, chKey p.1 ∈ db.channels.map chKey ∧
      db.boards.find? (fun r => r.address = p.1.boardAddress) = some p.2 := by
  intro p hp
  obtain ⟨h1, h2⟩ := mem_joinRows.mp (mem_selectChannels hp)
  exact ⟨List.mem_map_of_mem chKey h1, h2⟩

lemma sel_layer {db : DBState} {l : Int} {p : ChannelRow × BoardRow}
    (hp : p ∈ selectChannels db (some l)) : p.1.layer = some l := by
  have := List.of_mem_filter hp
  simpa using this

lemma writeThenUpdate_spec (a : Adapter) (now : Int) (pairs : List (String × ℚ))
    (w : World) (sel : List (ChannelRow × BoardRow))
    (hnd : (w.db.channels.map chKey).Nodup)
    (hsub : ∀ p ∈ sel, p ∈ joinRows w.db)
    (hkeys : (sel.map (fun p => chKey p.1)).Nodup) :
    (updLoop a now sel (writeLoop a pairs sel w)).db.boards = w.db.boards ∧
    (updLoop a now sel (writeLoop a pairs sel w)).db.channels.map chKey =
      w.db.channels.map chKey ∧
    (updLoop a now sel (writeLoop a pairs sel w)).log = w.log ++
      (sel.map (fun p => HWEvent.set p.1.boardAddress p.2.handler p.1.channel pairs)
        ++ sel.map refreshEvt) ∧
    (∀ p ∈ sel, (a.getPars p.2.handler p.1.channel parNames).isSome = true →
       ∃ c ∈ (updLoop a now sel (writeLoop a pairs sel w)).db.channels,
         chKey c = chKey p.1 ∧ c.lastUpdate = some now) := by
  rw [writeLoop_spec hnd hsub]
  have hu := updLoop_spec a now
    (w := { db := w.db, log := w.log ++ sel.map (fun p =>
      HWEvent.set p.1.boardAddress p.2.handler p.1.channel pairs) })
    hnd (fun p hp => by
      obtain ⟨h1, h2⟩ := mem_joinRows.mp (hsub p hp)
      exact ⟨List.mem_map_of_mem chKey h1, h2⟩) hkeys
  refine ⟨hu.1, hu.2.1, ?_, hu.2.2.2⟩
  rw [hu.2.2.1]
  simp

lemma setVoltage_spec (a : Adapter) (cfg : Config) (ru rd : ℚ) (now : Int)
    (layer : Option Int) (m : ℚ) (w : World)
    (hnd : (w.db.channels.map chKey).Nodup)
    (hm : ¬(m < 0 ∨ 1.2 < m)) (hmax : maxDefaultVoltage cfg ≠ 0) :
    (setVoltage a cfg ru rd now layer m w).2 = none ∧
    (setVoltage a cfg ru rd now layer m w).1.log = w.log ++
      ((selectChannels w.db layer).map (svEvt cfg ru rd m) ++
       ((selectChannels w.db layer).map pwOnEvt ++
        (selectChannels w.db layer).map refreshEvt)) := by
  have hsub : ∀ p ∈ selectChannels w.db layer, p ∈ joinRows w.db := sel_sub_joinRows
  have hkeys := selectChannels_keys_nodup layer hnd
  rw [setVoltage, if_neg hm, setVoltageLoop_spec hmax hnd hsub]
  show ((pwUp a now layer
        { db := w.db,
          log := w.log ++ (selectChannels w.db layer).map (svEvt cfg ru rd m) },
      none) : World × Option String).2 = none ∧ _
  refine ⟨rfl, ?_⟩
  show (pwUp a now layer
      { db := w.db,
        log := w.log ++ (selectChannels w.db layer).map (svEvt cfg ru rd m) }).log = _
  have hw := writeThenUpdate_spec a now [("Pw", 1)]
    { db := w.db, log := w.log ++ (selectChannels w.db layer).map (svEvt cfg ru rd m) }
    (selectChannels w.db layer) hnd hsub hkeys
  rw [pwUp]
  rw [hw.2.2.1]
  simp [pwOnEvt]

end Lemmas

/-! Concrete instances used by the witnesses and counterexamples. -/

/-- A deterministic adapter-initialisation function (`FakeBoard.initialize`
returns an integer handle computed from the address and bus path). -/
def ih0 : String → Int → Int → Int := fun _ _ _ => 100

/-- An adapter whose reads return 0 for every requested name and whose
writes always succeed. -/
def a0 : Adapter :=
  ⟨fun _ _ ns => some (ns.map (fun n => (n, 0))), fun _ _ _ => true⟩

/-- An adapter whose reads always raise. -/
def aNoRead : Adapter := ⟨fun _ _ _ => none, fun _ _ _ => true⟩

/-- An adapter whose writes always raise. -/
def aNoWrite : Adapter :=
  ⟨fun _ _ ns => some (ns.map (fun n => (n, 0))), fun _ _ _ => false⟩

/-- The example configuration profile: layer 1 at 1000 V, layer 2 at
2000 V. -/
def cfg0 : Config := ⟨[("1", 1000), ("2", 2000)], [("1", 50), ("2", 50)]⟩

/-- One board with two channels on layers 1 and 2, never refreshed. -/
def db0 : DBState :=
  ⟨[⟨"1", 0, 0, some 100⟩],
   [⟨1, some "a", some 1, none, [], "1"⟩, ⟨2, some "b", some 2, none, [], "1"⟩]⟩

/-- The world built on `db0` with an empty adapter log. -/
def w0 : World := ⟨db0, []⟩

/-- The configuration list matching `db0`. -/
def cfgBoards : List BoardInfo :=
  [⟨"1", 0, 0, none, [⟨1, some "a", some 1⟩, ⟨2, some "b", some 2⟩]⟩]

/-- A handler context over `a0` and `cfg0`. -/
def hc0 : HandlerCtx := ⟨a0, cfg0, 10, 100, 10⟩

/-- A store with one freshly-refreshed channel (`last_update = 0`). -/
def dbFresh : DBState :=
  ⟨[⟨"1", 0, 0, some 100⟩], [⟨1, some "a", some 1, some 0, [("VSet", 0)], "1"⟩]⟩

/-- The world built on `dbFresh`. -/
def wFresh : World := ⟨dbFresh, []⟩

/-- The joined row pair of the first channel of `db0`. -/
def p1 : ChannelRow × BoardRow :=
  (⟨1, some "a", some 1, none, [], "1"⟩, ⟨"1", 0, 0, some 100⟩)

/-- The joined row pair of the single channel of `dbFresh`. -/
def pFresh : ChannelRow × BoardRow :=
  (⟨1, some "a", some 1, some 0, [("VSet", 0)], "1"⟩, ⟨"1", 0, 0, some 100⟩)

/-! The claims. -/

/-- Claim C10: `Handler.__init__` first binds a fresh in-memory store and
deletes every Board and Channel row, so the post-construction state is a
function of the configuration alone: two constructions over arbitrary
distinct prior store contents produce identical results, and no cached
channel parameter survives from a previous supervisor instance. -/
theorem c10_initIndependentOfPriorStore (ih : String → Int → Int → Int)
    (a : Adapter) (cfg : List BoardInfo) (profile : Config) (imr ru rd : ℚ)
    (db1 db2 : DBState) (lg : List HWEvent) :
    handlerInit ih a cfg profile imr ru rd ⟨db1, lg⟩ =
      handlerInit ih a cfg profile imr ru rd ⟨db2, lg⟩ := rfl

/-- Claim C2 (code bug): directory reconciliation is not idempotent. The
first `Reconcile` on the cleared store succeeds and leaves exactly the
configured board with its two channels, but running `__initialize_boards`
again with the same configuration fails with the `__add_board` error
`This board already exists.`, because the second pass re-adds every
configuration entry unconditionally. -/
theorem c2_secondReconcileRaises :
    (initializeBoards ih0 cfgBoards ⟨[], []⟩).2 = none ∧
    (initializeBoards ih0 cfgBoards ⟨[], []⟩).1 =
      ⟨[⟨"1", 0, 0, some 100⟩],
       [⟨1, some "a", some 1, none, [], "1"⟩, ⟨2, some "b", some 2, none, [], "1"⟩]⟩ ∧
    (initializeBoards ih0 cfgBoards
        (initializeBoards ih0 cfgBoards ⟨[], []⟩).1).2 =
      some "This board already exists." := by decide

/-- Claim C8: `deserialize(serialize(ticket))` reconstructs a ticket whose
`description` equals the original ticket description, for every
constructible ticket of every kind. -/
theorem c8_roundTripDescription (t : Ticket) :
    ∃ t', deserializeTicket (serializeTicket t) = Except.ok t' ∧
      description t' = description t := by
  cases t with
  | down => exact ⟨Ticket.down, rfl, rfl⟩
  | setVoltage q => exact ⟨Ticket.setVoltage q, rfl, rfl⟩
  | getParams sel => exact ⟨Ticket.getParams none, rfl, rfl⟩

/-- Claim C9 (counterexample): a `GetParams` request whose params object
lacks the declared required key `select_params` deserializes successfully
(`select_params` silently becomes `None`) instead of raising a
missing-field error. -/
theorem c9_counterexample :
    deserializeTicket (J.obj [("name", J.str "GetParams"), ("params", J.obj [])]) =
      Except.ok (Ticket.getParams none) := rfl

/-- Claim C9 (amended): deserialization raises a missing-field error for
a `SetVoltage` request whose params lack `target_voltage` (and `Down`
declares no required keys), but `GetParams` — despite declaring
`select_params` required — constructs successfully with
`select_params = None` when the key is absent. -/
theorem c9_amended (pf qf : List (String × J))
    (h1 : pf.find? (fun f => f.1 = "target_voltage") = none)
    (h2 : qf.find? (fun f => f.1 = "select_params") = none) :
    deserializeTicket (J.obj [("name", J.str "SetVoltage"), ("params", J.obj pf)]) =
      Except.error missingFieldMsg ∧
    deserializeTicket (J.obj [("name", J.str "GetParams"), ("params", J.obj qf)]) =
      Except.ok (Ticket.getParams none) := by
  constructor
  · have hred : deserializeTicket
        (J.obj [("name", J.str "SetVoltage"), ("params", J.obj pf)]) =
        (match (pf.find? (fun f => f.1 = "target_voltage")).map (fun f => f.2) with
         | none => Except.error missingFieldMsg
         | some (J.num q) => Except.ok (Ticket.setVoltage q)
         | some _ => Except.error "ValueError: could not convert to float") := rfl
    rw [hred, h1]
    rfl
  · have hred : deserializeTicket
        (J.obj [("name", J.str "GetParams"), ("params", J.obj qf)]) =
        Except.ok (Ticket.getParams (decodeNames
          ((qf.find? (fun f => f.1 = "select_params")).map (fun f => f.2)))) := rfl
    rw [hred, h2]
    rfl

/-- Witness for C9 (amended) at the empty params object. -/
theorem c9_amended_witness :
    deserializeTicket (J.obj [("name", J.str "SetVoltage"), ("params", J.obj [])]) =
      Except.error missingFieldMsg ∧
    deserializeTicket (J.obj [("name", J.str "GetParams"), ("params", J.obj [])]) =
      Except.ok (Ticket.getParams none) :=
  c9_amended [] [] rfl rfl

/-- Claim C6: `set_voltage` rejects every multiplier outside `[0, 1.2]`
with the range `ValueError` before performing any write (state returned
unchanged), and never raises the range error for a multiplier inside the
interval. -/
theorem c6_rangeRejection (a : Adapter) (cfg : Config) (ru rd : ℚ) (now : Int)
    (layer : Option Int) (m : ℚ) (w : World) :
    ((m < 0 ∨ 1.2 < m) → setVoltage a cfg ru rd now layer m w = (w, some rangeMsg)) ∧
    (0 ≤ m → m ≤ 1.2 → (setVoltage a cfg ru rd now layer m w).2 ≠ some rangeMsg) := by
  constructor
  · intro hm
    rw [setVoltage, if_pos hm]
  · intro hm0 hm1
    have hm : ¬(m < 0 ∨ 1.2 < m) := by
      rintro (h | h)
      · exact absurd hm0 (not_le.mpr h)
      · exact absurd hm1 (not_le.mpr h)
    rw [setVoltage, if_neg hm]
    have herr := setVoltageLoop_err a cfg ru rd m (selectChannels w.db layer) w
    cases hsv : setVoltageLoop a cfg ru rd m (selectChannels w.db layer) w with
    | mk w' e =>
      rw [hsv] at herr
      cases e with
      | none => simp
      | some msg =>
        simp only at herr
        have hmsg : msg = zeroDivMsg := by
          rcases herr with h | h
          · exact absurd h (by simp)
          · exact Option.some.inj h
        subst hmsg
        show (some zeroDivMsg : Option String) ≠ some rangeMsg
        decide

/-- Witness for C6: the multiplier 2 is rejected with the state untouched
and the multiplier 1 is not range-rejected. -/
theorem c6_witness :
    setVoltage a0 cfg0 10 100 0 none 2 w0 = (w0, some rangeMsg) ∧
    (setVoltage a0 cfg0 10 100 0 none 1 w0).2 ≠ some rangeMsg :=
  ⟨(c6_rangeRejection a0 cfg0 10 100 0 none 2 w0).1 (by norm_num),
   (c6_rangeRejection a0 cfg0 10 100 0 none 1 w0).2 (by norm_num) (by norm_num)⟩

/-- Claim C1: for every layer selection and every multiplier in
`[0, 1.2]` (with a nonzero maximum default voltage), `set_voltage`
raises nothing and issues, for each selected channel, the write
`(VSet, V_def * m), (RUp, round(base_ramp_up * layer_speed_mod)),
(RDown, round(base_ramp_down * layer_speed_mod))` — where
`layer_speed_mod = V_def / V_def_max`, or 1 for the sentinel layer `-1` —
then powers up exactly the same selection with `(Pw, 1)` (followed by the
forced per-channel refresh reads); channels outside a selected layer
receive no writes. -/
theorem c1_setVoltageWrites (a : Adapter) (cfg : Config) (ru rd : ℚ)
    (now : Int) (layer : Option Int) (m : ℚ) (w : World)
    (hnd : (w.db.channels.map chKey).Nodup)
    (hm0 : 0 ≤ m) (hm1 : m ≤ 1.2) (hmax : maxDefaultVoltage cfg ≠ 0) :
    (setVoltage a cfg ru rd now layer m w).2 = none ∧
    (setVoltage a cfg ru rd now layer m w).1.log = w.log ++
      ((selectChannels w.db layer).map (svEvt cfg ru rd m) ++
       ((selectChannels w.db layer).map pwOnEvt ++
        (selectChannels w.db layer).map refreshEvt)) ∧
    (∀ l, layer = some l → ∀ c ∈ w.db.channels, c.layer ≠ some l →
      ∀ ev ∈ (setVoltage a cfg ru rd now layer m w).1.log.drop w.log.length,
        isSetAt c.boardAddress c.channel ev = false) := by
  have hm : ¬(m < 0 ∨ 1.2 < m) := by
    rintro (h | h)
    · exact absurd hm0 (not_le.mpr h)
    · exact absurd hm1 (not_le.mpr h)
  have hs := setVoltage_spec a cfg ru rd now layer m w hnd hm hmax
  refine ⟨hs.1, hs.2, ?_⟩
  intro l hl c hcmem hcl ev hev
  rw [hs.2, List.drop_left] at hev
  subst hl
  have hkill : ∀ p ∈ selectChannels w.db (some l),
      ¬(p.1.boardAddress = c.boardAddress ∧ p.1.channel = c.channel) := by
    intro p hp hcon
    have hplayer := sel_layer hp
    have hp1mem : p.1 ∈ w.db.channels := (mem_joinRows.mp (mem_selectChannels hp)).1
    have : p.1 = c := List.inj_on_of_nodup_map hnd hp1mem hcmem
      (by simp [chKey, hcon.1, hcon.2])
    exact hcl (this ▸ hplayer)
  rcases List.mem_append.mp hev with h1 | h23
  · obtain ⟨p, hp, hevq⟩ := List.mem_map.mp h1
    rw [← hevq]
    simp only [svEvt, isSetAt, decide_eq_false_iff_not]
    exact hkill p hp
  · rcases List.mem_append.mp h23 with h2 | h3
    · obtain ⟨p, hp, hevq⟩ := List.mem_map.mp h2
      rw [← hevq]
      simp only [pwOnEvt, isSetAt, decide_eq_false_iff_not]
      exact hkill p hp
    · obtain ⟨p, hp, hevq⟩ := List.mem_map.mp h3
      rw [← hevq]
      rfl

/-- Witness for C1 at the example configuration (two channels on layers
1 and 2), selecting layer 1 with multiplier 1. -/
theorem c1_witness :
    (setVoltage a0 cfg0 10 100 0 (some 1) 1 w0).2 = none ∧
    (setVoltage a0 cfg0 10 100 0 (some 1) 1 w0).1.log = w0.log ++
      ((selectChannels w0.db (some 1)).map (svEvt cfg0 10 100 1) ++
       ((selectChannels w0.db (some 1)).map pwOnEvt ++
        (selectChannels w0.db (some 1)).map refreshEvt)) :=
  ⟨(c1_setVoltageWrites a0 cfg0 10 100 0 (some 1) 1 w0 (by decide)
      (by norm_num) (by norm_num) (by decide)).1,
   (c1_setVoltageWrites a0 cfg0 10 100 0 (some 1) 1 w0 (by decide)
      (by norm_num) (by norm_num) (by decide)).2.1⟩

/-- Claim C7: `pw_down` writes `(VSet, 0), (Pw, 0), (RDown, 100)` to each
selected channel and then forces one refresh read per selected channel;
when the adapter reads succeed, every affected channel ends with
`last_update = now` — the time of the call, not a stale value. -/
theorem c7_pwDownForcedRefresh (a : Adapter) (now : Int) (layer : Option Int)
    (w : World) (hnd : (w.db.channels.map chKey).Nodup)
    (hga : ∀ h c, (a.getPars h c parNames).isSome = true) :
    (pwDown a now layer w).log = w.log ++
      ((selectChannels w.db layer).map pwOffEvt ++
       (selectChannels w.db layer).map refreshEvt) ∧
    (∀ p ∈ selectChannels w.db layer, ∃ c ∈ (pwDown a now layer w).db.channels,
      chKey c = chKey p.1 ∧ c.lastUpdate = some now) := by
  have hw := writeThenUpdate_spec a now [("VSet", 0), ("Pw", 0), ("RDown", 100)] w
    (selectChannels w.db layer) hnd sel_sub_joinRows (selectChannels_keys_nodup layer hnd)
  exact ⟨hw.2.2.1, fun p hp => hw.2.2.2 p hp (hga p.2.handler p.1.channel)⟩

/-- Witness for C7: powering down the whole fleet of `w0`. -/
theorem c7_witness :
    (pwDown a0 0 none w0).log = w0.log ++
      ((selectChannels w0.db none).map pwOffEvt ++
       (selectChannels w0.db none).map refreshEvt) :=
  (c7_pwDownForcedRefresh a0 0 none w0 (by decide) (fun _ _ => rfl)).1

/-- Claim C3: every ticket execution, on every handler state, returns a
JSON envelope with exactly the keys `status` and `body`; whenever
`status` is false the body is `{"error": <message>}`; handler exceptions
(such as the out-of-range multiplier `ValueError`) are converted into
that envelope rather than propagated. -/
theorem c3_envelopeWellFormed (hc : HandlerCtx) (now : Int) (w : World)
    (t : Ticket) :
    keysOf (executeTicket hc now w t).1 = ["status", "body"] ∧
    (getKey (executeTicket hc now w t).1 "status" = some (J.bool false) →
      ∃ msg, getKey (executeTicket hc now w t).1 "body" =
        some (J.obj [("error", J.str msg)])) := by
  cases t with
  | down =>
    refine ⟨rfl, ?_⟩
    intro h
    have hst : getKey (executeTicket hc now w Ticket.down).1 "status" =
        some (J.bool true) := rfl
    rw [hst] at h
    exact absurd (Option.some.inj h) (by simp)
  | setVoltage tq =>
    cases hsv : setVoltage hc.adapter hc.cfg hc.rampUp hc.rampDown now none tq w with
    | mk w' e =>
      cases e with
      | none =>
        have hex : executeTicket hc now w (Ticket.setVoltage tq) =
            (okEnv (J.obj []), w') := by
          simp only [executeTicket, hsv]
        rw [hex]
        refine ⟨rfl, ?_⟩
        intro h
        exact absurd (Option.some.inj h) (by simp)
      | some msg =>
        have hex : executeTicket hc now w (Ticket.setVoltage tq) =
            (errEnv msg, w') := by
          simp only [executeTicket, hsv]
        rw [hex]
        exact ⟨rfl, fun _ => ⟨msg, rfl⟩⟩
  | getParams sel =>
    cases hgp : getParamsAll hc.adapter hc.cfg now hc.refreshTime sel w with
    | mk w' pj =>
      have hex : executeTicket hc now w (Ticket.getParams sel) =
          (okEnv (J.obj [("params", pj)]), w') := by
        simp only [executeTicket, hgp]
      rw [hex]
      refine ⟨rfl, ?_⟩
      intro h
      exact absurd (Option.some.inj h) (by simp)

/-- Witness for C3: the out-of-range multiplier 2 produces a
`status=false` envelope whose body carries an error message. -/
theorem c3_witness :
    ∃ msg, getKey (executeTicket hc0 0 w0 (Ticket.setVoltage 2)).1 "body" =
      some (J.obj [("error", J.str msg)]) := by
  apply (c3_envelopeWellFormed hc0 0 w0 (Ticket.setVoltage 2)).2
  have hsv : setVoltage a0 cfg0 10 100 0 none 2 w0 = (w0, some rangeMsg) := by
    rw [setVoltage, if_pos (Or.inr (show (1.2:ℚ) < 2 by norm_num))]
  have hex : executeTicket hc0 0 w0 (Ticket.setVoltage 2) = (errEnv rangeMsg, w0) := by
    simp only [executeTicket, hc0, hsv]
  rw [hex]
  rfl

/-- The parameter values returned by the all-zero adapter `a0`. -/
def vals0 : List (String × ℚ) := parNames.map (fun n => (n, 0))

/-- Claim C4 (counterexample): with a hardware adapter whose writes all
fail, executing a `SetVoltage` ticket still returns a `status=true`
envelope — the write failure is not surfaced as `status=false` because
`set_voltage` discards the boolean returned by `__set_parameters`. -/
theorem c4_counterexample :
    aNoWrite.setOk (some 100) 1 [("Pw", 1)] = false ∧
    getKey (executeTicket ⟨aNoWrite, cfg0, 10, 100, 10⟩ 0 w0
      (Ticket.setVoltage 1)).1 "status" = some (J.bool true) := by
  refine ⟨rfl, ?_⟩
  have hm : ¬((1:ℚ) < 0 ∨ (1.2:ℚ) < 1) := by norm_num
  have hsv := (setVoltage_spec aNoWrite cfg0 10 100 0 none 1 w0 (by decide) hm
    (by decide)).1
  cases hpair : setVoltage aNoWrite cfg0 10 100 0 none 1 w0 with
  | mk w' e =>
    rw [hpair] at hsv
    simp only at hsv
    subst hsv
    have hex : executeTicket ⟨aNoWrite, cfg0, 10, 100, 10⟩ 0 w0
        (Ticket.setVoltage 1) = (okEnv (J.obj []), w') := by
      simp only [executeTicket, hpair]
    rw [hex]
    rfl

/-- Claim C4 (amended): when a hardware write fails, the cache is left
untouched and `__set_parameters` reports the failure to its immediate
caller by returning `False`; however `set_voltage` ignores that result,
so the enclosing `SetVoltage` ticket execution still returns a
`status=true` envelope — the failure is swallowed above
`__set_parameters` instead of producing `status=false`. -/
theorem c4_amended (a : Adapter) (cfg : Config) (ru rd : ℚ) (ttl now : Int)
    (w : World) (ci : ChannelInfo) (pairs : List (String × ℚ))
    (hfail : ∀ h c ps, a.setOk h c ps = false) :
    (setParameters a w ci pairs).1.db = w.db ∧
    (setParameters a w ci pairs).2 = false ∧
    (∀ m, (w.db.channels.map chKey).Nodup → 0 ≤ m → m ≤ 1.2 →
      maxDefaultVoltage cfg ≠ 0 →
      getKey (executeTicket ⟨a, cfg, ru, rd, ttl⟩ now w
        (Ticket.setVoltage m)).1 "status" = some (J.bool true)) := by
  refine ⟨?_, ?_, ?_⟩
  · cases hgc : getChannel w.db ci with
    | none => simp [setParameters, hgc]
    | some q =>
      obtain ⟨c, b⟩ := q
      simp [setParameters, hgc]
  · cases hgc : getChannel w.db ci with
    | none => simp [setParameters, hgc]
    | some q =>
      obtain ⟨c, b⟩ := q
      simp [setParameters, hgc, hfail]
  · intro m hnd hm0 hm1 hmax
    have hm : ¬(m < 0 ∨ 1.2 < m) := by
      rintro (h | h)
      · exact absurd hm0 (not_le.mpr h)
      · exact absurd hm1 (not_le.mpr h)
    have hsv := (setVoltage_spec a cfg ru rd now none m w hnd hm hmax).1
    cases hpair : setVoltage a cfg ru rd now none m w with
    | mk w' e =>
      rw [hpair] at hsv
      simp only at hsv
      subst hsv
      have hex : executeTicket ⟨a, cfg, ru, rd, ttl⟩ now w (Ticket.setVoltage m) =
          (okEnv (J.obj []), w') := by
        simp only [executeTicket, hpair]
      rw [hex]
      rfl

/-- Witness for C4 (amended): the always-failing adapter on `w0`. -/
theorem c4_witness :
    (setParameters aNoWrite w0 (ciOf p1) [("VSet", 0)]).1.db = w0.db ∧
    (setParameters aNoWrite w0 (ciOf p1) [("VSet", 0)]).2 = false ∧
    getKey (executeTicket ⟨aNoWrite, cfg0, 10, 100, 10⟩ 0 w0
      (Ticket.setVoltage 1)).1 "status" = some (J.bool true) :=
  ⟨(c4_amended aNoWrite cfg0 10 100 10 0 w0 (ciOf p1) [("VSet", 0)]
      (fun _ _ _ => rfl)).1,
   (c4_amended aNoWrite cfg0 10 100 10 0 w0 (ciOf p1) [("VSet", 0)]
      (fun _ _ _ => rfl)).2.1,
   (c4_amended aNoWrite cfg0 10 100 10 0 w0 (ciOf p1) [("VSet", 0)]
      (fun _ _ _ => rfl)).2.2 1 (by decide) (by norm_num) (by norm_num) (by decide)⟩

/-- Claim C5: a parameter read for a cached channel performs zero
hardware reads and serves the cached row when `last_update` is within
the TTL; when `last_update` is unset or older than the TTL it performs
exactly one hardware read — on failure the stale cached values are
returned unchanged, and on success the returned values plus
`last_update = now` are stored and the re-read row is returned. -/
theorem c5_refreshPolicy (a : Adapter) (now ttl : Int) (w : World)
    (p : ChannelRow × BoardRow)
    (hnd : (w.db.channels.map chKey).Nodup) (hp : p ∈ joinRows w.db) :
    (isStale p.1.lastUpdate now ttl = false →
      getParameters a now ttl w (ciOf p) = (w, some (readPars p.1))) ∧
    (isStale p.1.lastUpdate now ttl = true →
      a.getPars p.2.handler p.1.channel parNames = none →
      getParameters a now ttl w (ciOf p) =
        ({ db := w.db, log := w.log ++ [refreshEvt p] }, some (readPars p.1))) ∧
    (∀ vals, isStale p.1.lastUpdate now ttl = true →
      a.getPars p.2.handler p.1.channel parNames = some vals →
      getParameters a now ttl w (ciOf p) =
        ({ db := updateRow w.db p.1.boardAddress p.1.channel vals now,
           log := w.log ++ [refreshEvt p] },
         some (readPars ({ p.1 with pars := vals, lastUpdate := some now })))) := by
  obtain ⟨hc, hb⟩ := mem_joinRows.mp hp
  have hgc : getChannel w.db (ciOf p) = some (p.1, p.2) := by
    rw [ciOf_eq hp]
    exact getChannel_eq hnd hc hb _ _
  refine ⟨?_, ?_, ?_⟩
  · intro hfresh
    simp only [getParameters, hgc, hfresh]
    rfl
  · intro hstale hgpn
    have hupd := updateParameters_none a now hnd hp hgpn
    simp only [getParameters, hgc, hstale, hupd, if_true]
  · intro vals hstale hgps
    have hupd := updateParameters_some a now hnd hp hgps
    have hndU : ((updateRow w.db p.1.boardAddress p.1.channel vals now).channels.map
        chKey).Nodup := by rw [updateRow_keys]; exact hnd
    have hcU : ({ p.1 with pars := vals, lastUpdate := some now } : ChannelRow) ∈
        (updateRow w.db p.1.boardAddress p.1.channel vals now).channels :=
      updateRow_mem_updated hc ⟨rfl, rfl⟩
    have hbU : (updateRow w.db p.1.boardAddress p.1.channel vals now).boards.find?
        (fun r => r.address = p.1.boardAddress) = some p.2 := hb
    have hgcU : getChannel (updateRow w.db p.1.boardAddress p.1.channel vals now)
        (ciOf p) =
        some (({ p.1 with pars := vals, lastUpdate := some now } : ChannelRow), p.2) := by
      rw [ciOf_eq hp]
      exact getChannel_eq hndU hcU hbU p.1.layer p.1.aliasName
    simp only [getParameters, hgc, hstale, hupd, hgcU, if_true]

/-- Witness for C5: a fresh row is served from the cache; a stale row
with a failing adapter returns the stale values after one read; a stale
row with a working adapter is refreshed and re-read. -/
theorem c5_witness :
    getParameters a0 0 10 wFresh (ciOf pFresh) = (wFresh, some (readPars pFresh.1)) ∧
    getParameters aNoRead 0 10 w0 (ciOf p1) =
      ({ db := w0.db, log := w0.log ++ [refreshEvt p1] }, some (readPars p1.1)) ∧
    getParameters a0 0 10 w0 (ciOf p1) =
      ({ db := updateRow w0.db p1.1.boardAddress p1.1.channel vals0 0,
         log := w0.log ++ [refreshEvt p1] },
       some (readPars ({ p1.1 with pars := vals0, lastUpdate := some 0 }))) :=
  ⟨(c5_refreshPolicy a0 0 10 wFresh pFresh (by decide) (by decide)).1 rfl,
   (c5_refreshPolicy aNoRead 0 10 w0 p1 (by decide) (by decide)).2.1 rfl rfl,
   (c5_refreshPolicy a0 0 10 w0 p1 (by decide) (by decide)).2.2 vals0 rfl rfl⟩

end CaenSetup

